import Mathlib

/-!
Verification of the NauPanel server-state and live-console subsystem.

The definitions below are a shallow embedding of the TypeScript sources:
- the mock API interceptor (mock-data.ts / mock-api.interceptor.ts): the
  per-server lifecycle state map, the per-server log buffer with its
  200-line cap, and the HTTP route handlers for status / logs / command /
  stats / lifecycle / file routes;
- the Angular ConsoleSocketService (live channel message handling and the
  polling fallback) and AppStateService (status refresh) from
  app-state.service.ts;
- the Express backend's stats route (run-backend.sh): its registry type
  with the optional rcon block, the RCON-configured guard, and the
  session outcome handling, with the route's external effects (network,
  OS counters, filesystem) supplied by an explicit oracle argument.

JavaScript arrays become Lean lists, JS Map / plain-object records become
association lists (first-key-wins lookup, in-place overwrite on set),
numbers used as limits become Int (the NaN case of Number() is modelled
by a dedicated constructor), and Date.now timestamps are passed in as an
explicit `now : String` argument.
-/

namespace NauPanel

/-- `status` field of ServerState in mock-data.ts. -/
inductive Status
  | offline
  | online
  | restarting
deriving DecidableEq, Repr

/-- `lastAction` values of ServerState in mock-data.ts. -/
inductive LAction
  | start
  | stop
  | restart
deriving DecidableEq, Repr

/-- ServerState from mock-data.ts: status, lastAction, lastActionAt. -/
structure ServerState where
  status : Status
  lastAction : Option LAction
  lastActionAt : Option String
deriving DecidableEq, Repr

/-- MockServer from mock-data.ts (id, name, path, port, description). -/
structure MockServer where
  id : String
  name : String
  path : String
  port : Nat
  description : Option String
deriving DecidableEq, Repr

/-- First registry entry of mock-data.ts. -/
def srvSurvival : MockServer :=
  ⟨"nau-survival", "Nau Survival", "D:/Minecraft/servers/nau-survival", 25565,
    some "Vanilla survival world focused on long-term progression."⟩

/-- Second registry entry of mock-data.ts. -/
def srvCreative : MockServer :=
  ⟨"nau-creative", "Nau Creative", "D:/Minecraft/servers/nau-creative", 25566,
    some "Creative sandbox for builds, schematics, and experiments."⟩

/-- Third registry entry of mock-data.ts. -/
def srvSkyblock : MockServer :=
  ⟨"nau-skyblock", "Nau Skyblock", "D:/Minecraft/servers/nau-skyblock", 25567,
    some "Skyblock challenge with economy and island progression."⟩

/-- Fourth registry entry of mock-data.ts. -/
def srvEvents : MockServer :=
  ⟨"nau-events", "Nau Events", "D:/Minecraft/servers/nau-events", 25568,
    some "Event server for mini-games and seasonal activities."⟩

/-- The static registry `mockServers` from mock-data.ts. -/
def mockServers : List MockServer :=
  [srvSurvival, srvCreative, srvSkyblock, srvEvents]

/-- JS `array.slice(-n)` for `n ≥ 1`: the last `min n l.length` elements. -/
def sliceLast {α : Type} (n : Nat) (l : List α) : List α :=
  l.drop (l.length - n)

/-- `appendLog` from mock-api.interceptor.ts: push the line, then
`splice(0, length - 200)` whenever the buffer holds more than 200 lines. -/
def appendLog (logs : List String) (line : String) : List String :=
  let l := logs ++ [line]
  if l.length > 200 then l.drop (l.length - 200) else l

/-- The `limit` query parameter as seen by the logs handler:
absent (`?? '50'` makes it 50), present but non-numeric
(`Number(...)` is NaN), or a numeric value. -/
inductive LimitParam
  | absent
  | nonNumeric
  | num (n : Int)
deriving DecidableEq, Repr

/-- The logs handler's limit resolution:
`Number.isNaN(limitParam) ? 50 : Math.max(1, limitParam)`,
with the absent case reading the default string `'50'`. -/
def resolveLimit : LimitParam → Int
  | .absent => 50
  | .nonNumeric => 50
  | .num n => max 1 n

/-- The logs handler body: `(serverLogs.get(id) ?? []).slice(-limit)`. -/
def tailLogs (lp : LimitParam) (logs : List String) : List String :=
  sliceLast (resolveLimit lp).toNat logs

/-! ### Association-list model of JS Map / plain-object records -/

/-- `Map.get` / object indexing: first entry with the key. -/
def mget {α : Type} : List (String × α) → String → Option α
  | [], _ => none
  | (k0, v) :: rest, k => if k0 = k then some v else mget rest k

/-- `Map.set` / object assignment: overwrite in place, else append. -/
def mset {α : Type} : List (String × α) → String → α → List (String × α)
  | [], k, v => [(k, v)]
  | (k0, v0) :: rest, k, v =>
    if k0 = k then (k, v) :: rest else (k0, v0) :: mset rest k v

/-! ### The mock interceptor's stores and helpers -/

/-- Entry type in the serverFiles store (`'file' | 'dir'`). -/
inductive FType
  | file
  | dir
deriving DecidableEq, Repr

/-- One serverFiles entry: `{ path, type, content? }`.
The source's `type` field is named `ftype` here (`type` is reserved). -/
structure FileEntry where
  path : String
  ftype : FType
  content : Option String
deriving DecidableEq, Repr

/-- The interceptor's three module-level stores: `serverStates`,
`serverLogs` and `serverFiles`. -/
structure MockDb where
  states : List (String × ServerState)
  logs : List (String × List String)
  files : List (String × List FileEntry)
deriving DecidableEq, Repr

/-- `getServerState` from mock-api.interceptor.ts: return the existing
entry or create (and store) the default offline state. -/
def getServerState (db : MockDb) (id : String) : ServerState × MockDb :=
  match mget db.states id with
  | some existing => (existing, db)
  | none =>
    let state : ServerState := ⟨.offline, none, none⟩
    (state, { db with states := mset db.states id state })

/-- `appendLog` acting on the serverLogs store:
`serverLogs.set(id, cap (serverLogs.get(id) ?? []) ++ [line])`. -/
def appendLogDb (db : MockDb) (id : String) (line : String) : MockDb :=
  { db with logs := mset db.logs id (appendLog ((mget db.logs id).getD []) line) }

/-- `normalizePath`: strip leading and trailing slashes
(`replace(/^\/+/, '')` then `replace(/\/+$/, '')`). -/
def normalizePath (value : String) : String :=
  String.mk (((value.data.dropWhile (fun c => c = '/')).reverse.dropWhile
    (fun c => c = '/')).reverse)

/-- `getParentPath`: split the normalized path on '/', drop the last
segment, and re-join. -/
def getParentPath (value : String) : String :=
  String.intercalate "/" ((normalizePath value).splitOn "/").dropLast

/-- `getName`: the last '/'-separated segment of the normalized path. -/
def getName (value : String) : String :=
  (((normalizePath value).splitOn "/").getLast?).getD ""

/-- JS `String.replace` with a string pattern: replace only the first
occurrence (an empty pattern inserts at the front). -/
def replaceFirst (s pat repl : String) : String :=
  if pat = "" then repl ++ s
  else
    match s.splitOn pat with
    | [] => s
    | [x] => x
    | x :: rest => x ++ repl ++ String.intercalate pat rest

/-- `Array.prototype.find` followed by an in-place mutation of the found
element: rewrite the first entry satisfying `p`. -/
def updateFirst (p : FileEntry → Bool) (f : FileEntry → FileEntry) :
    List FileEntry → List FileEntry
  | [] => []
  | x :: xs => if p x then f x :: xs else x :: updateFirst p f xs

/-! ### Requests and responses of the per-server routes -/

inductive Method
  | GET
  | POST
  | DELETE
deriving DecidableEq, Repr

/-- The captured action segment of
`/api/servers/:id(/(status|start|stop|restart|logs|command|stats|files...))?`.
`noAction` is a match with no second group. -/
inductive RouteAction
  | noAction
  | statusR
  | logsR
  | commandR
  | statsR
  | filesR
  | filesContentR
  | filesDirR
  | filesRenameR
  | filesUploadR
  | filesDownloadR
  | startR
  | stopR
  | restartR
deriving DecidableEq, Repr

/-- A request to a per-server route, after URL matching: the captured id
and action, the HTTP method, the `limit` and `path` query parameters,
and the JSON body fields the handlers read. `uploadContent` stands for
the base64-decoded `atob(body.contentBase64)` string. -/
structure MockReq where
  id : String
  action : RouteAction
  method : Method
  limit : LimitParam := .absent
  command : Option String := none
  qpath : Option String := none
  bpath : Option String := none
  bcontent : Option String := none
  bfrom : Option String := none
  bto : Option String := none
  bname : Option String := none
  uploadContent : String := ""
deriving DecidableEq, Repr

/-- `players` object of the stats response. -/
structure Players where
  online : Nat
  maxPlayers : Nat
  names : List String
deriving DecidableEq, Repr

/-- `host` object of the stats response. -/
structure HostStats where
  cpuPercent : Nat
  memUsedMB : Nat
  memTotalMB : Nat
  memPercent : Nat
deriving DecidableEq, Repr

/-- `process` object of the stats response. -/
structure ProcStats where
  pid : Nat
  cpuPercent : Nat
  memMB : Nat
deriving DecidableEq, Repr

/-- `world` object of the stats response. -/
structure WorldStats where
  worldPath : String
  sizeBytes : Nat
deriving DecidableEq, Repr

/-- The stats response body (tps is an exact rational, 19.8 = 99/5). -/
structure StatsBody where
  status : Status
  players : Players
  tps : ℚ
  host : HostStats
  procStats : ProcStats
  world : WorldStats
  timestamp : String
deriving DecidableEq, Repr

/-- One entry of the files listing response. -/
structure DirEntry where
  name : String
  path : String
  ftype : FType
  size : Option Nat
deriving DecidableEq, Repr

/-- JSON bodies the per-server routes can answer with. -/
inductive RespBody
  | err (msg : String)
  | serverAndState (server : MockServer) (state : ServerState)
  | logsBody (lines : List String)
  | okTrue
  | statsBody (s : StatsBody)
  | entries (es : List DirEntry)
  | content (c : String)
  | blob (c : String)
deriving DecidableEq, Repr

/-- An HTTP response of the mock: status code plus JSON body. -/
structure MockResponse where
  status : Nat
  body : RespBody
deriving DecidableEq, Repr

/-- The canned stats snapshot the mock returns, parameterized by the
current lifecycle status and the request timestamp. -/
def cannedStats (st : Status) (now : String) : StatsBody :=
  ⟨st, ⟨3, 20, ["Alex", "Steve", "Nau"]⟩, (⟨99, 5, by decide, by decide⟩ : ℚ),
    ⟨32, 3456, 8192, 42⟩, ⟨4312, 18, 2048⟩, ⟨"world", 524288000⟩, now⟩

/-- The per-server part of `mockApiInterceptor`: server lookup, lazy
state creation, then the chain of route handlers. The source's three
lifecycle `if` blocks share a final `return ok({server, state})`; since
the action is a single value they are mutually exclusive and are written
as one chain here, each returning the mutated state. A request matching
no handler falls through to the same `ok({server, state})`. -/
def handleServerReq (db0 : MockDb) (now : String) (r : MockReq) :
    MockResponse × MockDb :=
  match mockServers.find? (fun item => item.id = r.id) with
  | none => (⟨404, .err "Server not found."⟩, db0)
  | some server =>
    let p := getServerState db0 r.id
    let state := p.1
    let db := p.2
    if r.action = .noAction ∨ r.action = .statusR then
      (⟨200, .serverAndState server state⟩, db)
    else if r.action = .logsR ∧ r.method = .GET then
      (⟨200, .logsBody (tailLogs r.limit ((mget db.logs r.id).getD []))⟩, db)
    else if r.action = .commandR ∧ r.method = .POST then
      let command := (r.command.getD "").trim
      if command ≠ "" then
        (⟨200, .okTrue⟩,
          appendLogDb (appendLogDb db r.id ("[CMD] " ++ command)) r.id
            ("[INFO] Executed command: " ++ command))
      else
        (⟨200, .okTrue⟩, db)
    else if r.action = .statsR ∧ r.method = .GET then
      (⟨200, .statsBody (cannedStats state.status now)⟩, db)
    else if r.action = .filesR ∧ r.method = .GET then
      let pathParam := normalizePath (r.qpath.getD "")
      let files := (mget db.files r.id).getD []
      let entries := (files.filter
          (fun entry => getParentPath entry.path = pathParam)).map
        (fun entry =>
          (⟨getName entry.path, normalizePath entry.path, entry.ftype,
            if entry.ftype = .file then some ((entry.content.getD "").length)
            else none⟩ : DirEntry))
      (⟨200, .entries entries⟩, db)
    else if r.action = .filesContentR ∧ r.method = .GET then
      let pathParam := normalizePath (r.qpath.getD "")
      let files := (mget db.files r.id).getD []
      match files.find?
          (fun item => normalizePath item.path = pathParam ∧ item.ftype = .file) with
      | none => (⟨404, .err "File not found."⟩, db)
      | some entry => (⟨200, .content (entry.content.getD "")⟩, db)
    else if r.action = .filesContentR ∧ r.method = .POST then
      let pathParam := normalizePath (r.bpath.getD "")
      let content := r.bcontent.getD ""
      let files := (mget db.files r.id).getD []
      let files1 :=
        if (files.find? (fun item => normalizePath item.path = pathParam)).isSome
        then updateFirst (fun item => normalizePath item.path = pathParam)
          (fun item => ⟨item.path, .file, some content⟩) files
        else files ++ [⟨pathParam, .file, some content⟩]
      (⟨200, .okTrue⟩, { db with files := mset db.files r.id files1 })
    else if r.action = .filesDirR ∧ r.method = .POST then
      let pathParam := normalizePath (r.bpath.getD "")
      let files := (mget db.files r.id).getD []
      let files1 :=
        if (files.find? (fun item => normalizePath item.path = pathParam)).isSome
        then files
        else files ++ [⟨pathParam, .dir, none⟩]
      (⟨200, .okTrue⟩, { db with files := mset db.files r.id files1 })
    else if r.action = .filesRenameR ∧ r.method = .POST then
      let fromP := normalizePath (r.bfrom.getD "")
      let toP := normalizePath (r.bto.getD "")
      let files := (mget db.files r.id).getD []
      let files1 := files.map (fun item =>
        if normalizePath item.path = fromP ∨
            (normalizePath item.path).startsWith (fromP ++ "/") then
          ⟨replaceFirst (normalizePath item.path) fromP toP, item.ftype,
            item.content⟩
        else item)
      (⟨200, .okTrue⟩, { db with files := mset db.files r.id files1 })
    else if r.action = .filesR ∧ r.method = .DELETE then
      let pathParam := normalizePath (r.qpath.getD "")
      let files := ((mget db.files r.id).getD []).filter (fun item =>
        ¬(normalizePath item.path = pathParam) ∧
          ¬(normalizePath item.path).startsWith (pathParam ++ "/"))
      (⟨200, .okTrue⟩, { db with files := mset db.files r.id files })
    else if r.action = .filesUploadR ∧ r.method = .POST then
      let basePath := normalizePath (r.bpath.getD "")
      let name := r.bname.getD "upload.txt"
      let pathParam := normalizePath (basePath ++ "/" ++ name)
      let files := (mget db.files r.id).getD []
      let files1 := files ++ [⟨pathParam, .file, some r.uploadContent⟩]
      (⟨200, .okTrue⟩, { db with files := mset db.files r.id files1 })
    else if r.action = .filesDownloadR ∧ r.method = .GET then
      let pathParam := normalizePath (r.qpath.getD "")
      let files := (mget db.files r.id).getD []
      match files.find?
          (fun item => normalizePath item.path = pathParam ∧ item.ftype = .file) with
      | none => (⟨404, .err "File not found."⟩, db)
      | some entry => (⟨200, .blob (entry.content.getD "")⟩, db)
    else if r.action = .startR then
      let st : ServerState := ⟨.online, some .start, some now⟩
      let db1 := appendLogDb { db with states := mset db.states r.id st } r.id
        "[INFO] Server started"
      (⟨200, .serverAndState server st⟩, db1)
    else if r.action = .stopR then
      let st : ServerState := ⟨.offline, some .stop, some now⟩
      let db1 := appendLogDb { db with states := mset db.states r.id st } r.id
        "[INFO] Server stopped"
      (⟨200, .serverAndState server st⟩, db1)
    else if r.action = .restartR then
      let st : ServerState := ⟨.online, some .restart, some now⟩
      let db1 := appendLogDb { db with states := mset db.states r.id st } r.id
        "[INFO] Server restarted"
      (⟨200, .serverAndState server st⟩, db1)
    else
      (⟨200, .serverAndState server state⟩, db)

/-! ### Seeded stores (seedStates / seedLogs / seedFiles on first call) -/

/-- The mockStates record, in `Object.entries` order. -/
def mockStatesSeed : List (String × ServerState) :=
  [ ("nau-survival", ⟨.online, some .start, some "2026-02-08T07:40:00.000Z"⟩),
    ("nau-creative", ⟨.offline, some .stop, some "2026-02-08T07:10:00.000Z"⟩),
    ("nau-skyblock", ⟨.restarting, some .restart, some "2026-02-08T07:55:00.000Z"⟩),
    ("nau-events", ⟨.offline, none, none⟩) ]

/-- The mockLogs record, in `Object.entries` order. -/
def mockLogsSeed : List (String × List String) :=
  [ ("nau-survival",
      [ "[INFO] Starting minecraft server version 1.20.4",
        "[INFO] Loading properties",
        "[INFO] Default game type: SURVIVAL",
        "[INFO] Done (4.21s)! For help, type \x22help\x22" ]),
    ("nau-creative",
      [ "[INFO] Starting minecraft server version 1.20.4",
        "[INFO] Default game type: CREATIVE",
        "[INFO] Preparing spawn area: 78%",
        "[INFO] Done (3.87s)! For help, type \x22help\x22" ]),
    ("nau-skyblock",
      [ "[INFO] Starting minecraft server version 1.20.4",
        "[INFO] Loading skyblock islands",
        "[WARN] Island queue backlog detected",
        "[INFO] Done (5.02s)! For help, type \x22help\x22" ]),
    ("nau-events",
      [ "[INFO] Starting minecraft server version 1.20.4",
        "[INFO] Loading mini-games",
        "[INFO] Arena 2 ready",
        "[INFO] Done (4.66s)! For help, type \x22help\x22" ]) ]

/-- seedFiles: the same six entries for every registered server. -/
def mockFilesSeed : List (String × List FileEntry) :=
  mockServers.map (fun server =>
    (server.id,
      [ ⟨"config", .dir, none⟩,
        ⟨"logs", .dir, none⟩,
        ⟨"world", .dir, none⟩,
        ⟨"config/server.properties", .file, some "motd=A Nau server\nmax-players=20"⟩,
        ⟨"config/eula.txt", .file, some "eula=true"⟩,
        ⟨"logs/latest.log", .file, some "[INFO] Server started\n[INFO] Done"⟩ ]))

/-- The interceptor's stores right after the first request seeded them. -/
def seededDb : MockDb :=
  ⟨mockStatesSeed, mockLogsSeed, mockFilesSeed⟩

/-! ### ConsoleSocketService (app-state.service.ts, live console client) -/

/-- `maxDisplay` from ConsoleSocketService. -/
def maxDisplay : Nat := 5000

/-- The `setInterval` period of the polling fallback, in milliseconds. -/
def pollIntervalMs : Nat := 2000

/-- An incoming live-channel message after `JSON.parse`: a recognized
snapshot (`type === 'logs'`), a recognized incremental line
(`type === 'log'`), or any other parsed value (missing or unrecognized
`type`, including 'subscribe' / 'command' and non-object values). -/
inductive WsIn
  | logsMsg (logs : List String)
  | logMsg (line : String)
  | otherMsg
deriving DecidableEq, Repr

/-- `ConsoleSocketService.onMessage` acting on the published log list.
`none` is a payload `JSON.parse` rejected (the catch block returns) or a
falsy parse result (the `if (!message) return` guard); both leave the
state untouched, as does any parsed message without a recognized type. -/
def onMessage (parsed : Option WsIn) (current : List String) : List String :=
  match parsed with
  | none => current
  | some (.logsMsg ls) => sliceLast maxDisplay ls
  | some (.logMsg line) => sliceLast maxDisplay (current ++ [line])
  | some .otherMsg => current

/-- Everything that can touch the published log list: a live-channel
message, a successful poll response (`fetchLogs` next callback), or a
failed poll (`fetchLogs` error callback). -/
inductive ConsoleEvent
  | ws (m : Option WsIn)
  | pollOk (fetched : List String)
  | pollErr
deriving DecidableEq, Repr

/-- One update of the published log list. -/
def stepLogs (current : List String) : ConsoleEvent → List String
  | .ws m => onMessage m current
  | .pollOk fetched => sliceLast maxDisplay fetched
  | .pollErr => []

/-- The mutable fields of ConsoleSocketService that the polling fallback
uses: current server id, line limit, published logs, and whether the
polling interval is installed. -/
structure ConsoleSvc where
  serverId : String
  limit : Int
  logs : List String
  pollingActive : Bool
deriving DecidableEq, Repr

/-- `fetchLogs` composed with the mock interceptor it polls: issue
`GET /servers/:id/logs?limit=...` and publish the returned tail,
truncated with `slice(-maxDisplay)`. A response without a `logs` array
(the mock's 404 body) makes the next callback throw before publishing,
so the published list is left unchanged; an observable error (never
produced by the mock interceptor) is modelled by `ConsoleEvent.pollErr`. -/
def fetchLogs (db : MockDb) (svc : ConsoleSvc) : ConsoleSvc :=
  if svc.serverId = "" then svc
  else
    match (handleServerReq db ""
        { id := svc.serverId, action := .logsR, method := .GET,
          limit := .num svc.limit }).1 with
    | ⟨200, .logsBody ls⟩ => { svc with logs := sliceLast maxDisplay ls }
    | _ => svc

/-- `setLimit` in the mock (polling-fallback) mode: store the new limit,
bail out with no server selected, otherwise re-fetch immediately. -/
def setLimit (db : MockDb) (svc : ConsoleSvc) (limit : Int) : ConsoleSvc :=
  let svc1 := { svc with limit := limit }
  if svc1.serverId = "" then svc1
  else fetchLogs db svc1

/-- `startPolling`: one immediate fetch, then install the fixed
`pollIntervalMs` interval. -/
def startPolling (db : MockDb) (svc : ConsoleSvc) : ConsoleSvc :=
  { fetchLogs db svc with pollingActive := true }

/-- One firing of the polling interval (`() => this.fetchLogs()`). -/
def pollTick (db : MockDb) (svc : ConsoleSvc) : ConsoleSvc :=
  fetchLogs db svc

/-- `connect` in the mock mode: reset the published list and start the
polling fallback (or disconnect when the id is empty). -/
def connect (db : MockDb) (svc : ConsoleSvc) (serverId : String)
    (limit : Int) : ConsoleSvc :=
  let svc1 := { svc with serverId := serverId, limit := limit, logs := [] }
  if serverId = "" then { svc1 with pollingActive := false }
  else startPolling db svc1

/-! ### AppStateService.refreshStatuses (app-state.service.ts) -/

/-- The `{server, state}` pair each status request resolves to. -/
structure StatusResult where
  server : MockServer
  state : ServerState
deriving DecidableEq, Repr

/-- The fallback state substituted by `catchError` for a failed request. -/
def fallbackState : ServerState := ⟨.offline, none, none⟩

/-- `refreshStatuses`: empty server list publishes the empty record;
otherwise one request per server, `catchError` replacing a failure
(`outcome server = none`) by `{server, state: fallbackState}`, and the
forkJoin callback building `nextStates[result.server.id] = result.state`
over the results in order. -/
def refreshStatuses (servers : List MockServer)
    (outcome : MockServer → Option StatusResult) :
    List (String × ServerState) :=
  if servers.isEmpty then []
  else
    ((servers.map (fun server => (outcome server).getD ⟨server, fallbackState⟩)).foldl
      (fun m r => mset m r.server.id r.state) [])

/-- A concrete outcome function used to instantiate the refresh theorem:
the request for nau-creative fails, every other one succeeds. -/
def outcomeW : MockServer → Option StatusResult :=
  fun server =>
    if server.id = "nau-creative" then none
    else some ⟨server, ⟨.online, some .start, some "2026-02-08T08:00:00.000Z"⟩⟩

/-! ### The Express backend's stats route (run-backend.sh) -/

/-- The optional `rcon {host?, port?, password?}` block of a backend
ServerConfig. -/
structure RconConfig where
  host : Option String
  rport : Option Int
  password : Option String
deriving DecidableEq, Repr

/-- A backend ServerConfig from run-backend.sh: the registry fields plus
the optional remote-console block. -/
structure BServerConfig where
  id : String
  name : String
  path : String
  port : Nat
  description : Option String
  rcon : Option RconConfig
deriving DecidableEq, Repr

/-- JS truthiness of `server.rcon?.password`: the guard passes only when
an rcon block exists and carries a non-empty password string. -/
def hasRconPassword (server : BServerConfig) : Bool :=
  match server.rcon with
  | none => false
  | some r =>
    match r.password with
    | none => false
    | some p => p != ""

/-- `getServerState` from run-backend.sh, the same get-or-create over
the backend's serverStates map. -/
def bGetServerState (states : List (String × ServerState)) (id : String) :
    ServerState × List (String × ServerState) :=
  match mget states id with
  | some existing => (existing, states)
  | none =>
    let state : ServerState := ⟨.offline, none, none⟩
    (state, mset states id state)

/-- The backend stats payload: status, players, tps (`number | null`,
embedded as an exact rational), host sample, optional process sample,
world directory info, timestamp. -/
structure BStatsBody where
  status : Status
  players : Players
  tps : Option ℚ
  host : HostStats
  procStats : Option ProcStats
  world : WorldStats
  timestamp : String
deriving DecidableEq, Repr

/-- JSON bodies of the backend stats route. -/
inductive BRespBody
  | err (msg : String)
  | statsBody (s : BStatsBody)
deriving DecidableEq, Repr

/-- An HTTP response of the backend stats route. -/
structure BResponse where
  status : Nat
  body : BRespBody
deriving DecidableEq, Repr

/-- Outcome of the route's external effects — the RCON connect/queries,
OS counters, /proc scan and world-directory walk — supplied as an
oracle: either the session threw (the catch branch) or it produced the
payload values. -/
inductive StatsIO
  | failed
  | ok (players : Players) (tps : Option ℚ) (host : HostStats)
      (procStats : Option ProcStats) (world : WorldStats)
deriving DecidableEq, Repr

/-- The backend `GET /api/servers/:id/stats` route: the loaded guard,
the server lookup, the `!server.rcon?.password` guard answering 400
`{error: 'RCON not configured.'}` before any state access, then the
RCON session — on success the lifecycle status is forced online and the
snapshot returned, on a thrown session the status is forced offline and
500 returned. -/
def bHandleStats (servers : List BServerConfig) (serversLoaded : Bool)
    (states : List (String × ServerState)) (now : String) (id : String)
    (io : StatsIO) : BResponse × List (String × ServerState) :=
  if serversLoaded = false then
    (⟨500, .err "No servers configured."⟩, states)
  else
    match servers.find? (fun server => server.id = id) with
    | none => (⟨404, .err "Server not found."⟩, states)
    | some server =>
      if hasRconPassword server = false then
        (⟨400, .err "RCON not configured."⟩, states)
      else
        match io with
        | .ok players tps host procStats world =>
          let p := bGetServerState states server.id
          let st : ServerState := ⟨.online, p.1.lastAction, p.1.lastActionAt⟩
          (⟨200, .statsBody ⟨st.status, players, tps, host, procStats, world, now⟩⟩,
            mset p.2 server.id st)
        | .failed =>
          let p := bGetServerState states server.id
          let st : ServerState := ⟨.offline, p.1.lastAction, p.1.lastActionAt⟩
          (⟨500, .err "Unable to fetch server stats."⟩, mset p.2 server.id st)

/-- A backend registry entry whose config has no rcon block, as loaded
from a servers.yaml entry without an rcon section. -/
def bSrvNoRcon : BServerConfig :=
  ⟨"nau-survival", "Nau Survival", "D:/Minecraft/servers/nau-survival",
    25565, none, none⟩

/-! ## Helper lemmas -/

theorem sliceLast_length {α : Type} (n : Nat) (l : List α) :
    (sliceLast n l).length = min n l.length := by
  simp [sliceLast]
  omega

theorem sliceLast_suffix {α : Type} (n : Nat) (l : List α) :
    sliceLast n l <:+ l :=
  List.drop_suffix _ _

theorem sliceLast_eq_self {α : Type} {n : Nat} {l : List α} (h : l.length ≤ n) :
    sliceLast n l = l := by
  unfold sliceLast
  have hz : l.length - n = 0 := by omega
  rw [hz, List.drop_zero]

theorem appendLog_eq_sliceLast (logs : List String) (line : String) :
    appendLog logs line = sliceLast 200 (logs ++ [line]) := by
  simp only [appendLog, sliceLast]
  split
  · rfl
  · rename_i h
    have hz : (logs ++ [line]).length - 200 = 0 := by omega
    rw [hz, List.drop_zero]

theorem sliceLast_append_sliceLast {α : Type} (n : Nat) (xs ys : List α) :
    sliceLast n (sliceLast n xs ++ ys) = sliceLast n (xs ++ ys) := by
  simp only [sliceLast, List.length_append, List.length_drop]
  rw [List.drop_append_eq_append_drop, List.drop_append_eq_append_drop,
    List.drop_drop]
  simp only [List.length_drop]
  congr 1
  · congr 1
    omega
  · congr 1
    omega

theorem appendLog_length (logs : List String) (line : String) :
    (appendLog logs line).length = min (logs.length + 1) 200 := by
  rw [appendLog_eq_sliceLast, sliceLast_length, List.length_append]
  simp
  omega

theorem appendLog_length_le (logs : List String) (line : String) :
    (appendLog logs line).length ≤ 200 := by
  rw [appendLog_length]
  omega

theorem appendLog_getLast (logs : List String) (line : String) :
    (appendLog logs line).getLast? = some line := by
  rw [appendLog_eq_sliceLast]
  unfold sliceLast
  rw [List.drop_append_eq_append_drop]
  have hz : (logs ++ [line]).length - 200 - logs.length = 0 := by
    rw [List.length_append, List.length_singleton]
    omega
  rw [hz, List.drop_zero]
  simp

theorem foldl_appendLog (lines : List String) :
    ∀ init : List String, init.length ≤ 200 →
      lines.foldl appendLog init = sliceLast 200 (init ++ lines) := by
  induction lines with
  | nil =>
    intro init h
    simp [sliceLast_eq_self h]
  | cons l rest ih =>
    intro init h
    rw [List.foldl_cons, ih (appendLog init l) (appendLog_length_le init l),
      appendLog_eq_sliceLast, sliceLast_append_sliceLast]
    simp

theorem stepLogs_le (cur : List String) (e : ConsoleEvent)
    (h : cur.length ≤ maxDisplay) : (stepLogs cur e).length ≤ maxDisplay := by
  cases e with
  | ws m =>
    cases m with
    | none => exact h
    | some w =>
      cases w with
      | logsMsg ls =>
        simp only [stepLogs, onMessage]
        rw [sliceLast_length]
        omega
      | logMsg line =>
        simp only [stepLogs, onMessage]
        rw [sliceLast_length]
        omega
      | otherMsg => exact h
  | pollOk fetched =>
    simp only [stepLogs]
    rw [sliceLast_length]
    omega
  | pollErr =>
    simp [stepLogs]

theorem foldl_stepLogs_le (events : List ConsoleEvent) :
    ∀ cur : List String, cur.length ≤ maxDisplay →
      ((events.foldl stepLogs cur).length ≤ maxDisplay) := by
  induction events with
  | nil => intro cur h; exact h
  | cons e rest ih =>
    intro cur h
    rw [List.foldl_cons]
    exact ih (stepLogs cur e) (stepLogs_le cur e h)

theorem mget_mset_self {α : Type} (m : List (String × α)) (k : String) (v : α) :
    mget (mset m k v) k = some v := by
  induction m with
  | nil => simp [mset, mget]
  | cons q rest ih =>
    obtain ⟨k0, v0⟩ := q
    by_cases h : k0 = k
    · simp [mset, h, mget]
    · simp [mset, h, mget, ih]

theorem getServerState_states_mget (db : MockDb) (id : String) :
    mget (getServerState db id).2.states id = some (getServerState db id).1 := by
  unfold getServerState
  cases hmg : mget db.states id with
  | some s => simpa using hmg
  | none => simp [mget_mset_self]

theorem getServerState_logs (db : MockDb) (id : String) :
    (getServerState db id).2.logs = db.logs := by
  unfold getServerState
  cases hmg : mget db.states id <;> simp

theorem getServerState_files (db : MockDb) (id : String) :
    (getServerState db id).2.files = db.files := by
  unfold getServerState
  cases hmg : mget db.states id <;> simp

/-! ## Claims -/

/-- C1: for any pre-existing buffer of at most 200 lines and any sequence
of appended lines, the stored buffer is exactly the most recent 200 lines
of the full history in append order (`sliceLast 200` keeps the newest
suffix, dropping the oldest from the front), its length never exceeds 200
(and equals 200 as soon as the history reaches 200 lines), and a tail
request with limit 1000 returns exactly that stored buffer. -/
theorem claim_C1 (init lines : List String) (h : init.length ≤ 200) :
    lines.foldl appendLog init = sliceLast 200 (init ++ lines) ∧
    (lines.foldl appendLog init).length = min (init.length + lines.length) 200 ∧
    tailLogs (.num 1000) (lines.foldl appendLog init) =
      lines.foldl appendLog init := by
  have hfold := foldl_appendLog lines init h
  have hlen : (lines.foldl appendLog init).length =
      min (init.length + lines.length) 200 := by
    rw [hfold, sliceLast_length, List.length_append]
    omega
  refine ⟨hfold, hlen, ?_⟩
  have h1000 : (resolveLimit (.num 1000)).toNat = 1000 := by decide
  rw [tailLogs, h1000]
  exact sliceLast_eq_self (by omega)

/-- Witness for C1: an empty initial buffer and 250 appended lines; the
stored buffer ends up being the newest 200 lines and a limit-1000 tail
returns it unchanged. -/
theorem claim_C1_witness :
    ([] : List String).length ≤ 200 ∧
    ((List.replicate 250 "line").foldl appendLog [] =
        sliceLast 200 ([] ++ List.replicate 250 "line") ∧
      ((List.replicate 250 "line").foldl appendLog []).length =
        min (([] : List String).length + (List.replicate 250 "line").length) 200 ∧
      tailLogs (.num 1000) ((List.replicate 250 "line").foldl appendLog []) =
        (List.replicate 250 "line").foldl appendLog []) :=
  ⟨by decide, claim_C1 [] (List.replicate 250 "line") (by decide)⟩

/-- C3: the logs-route limit resolution — an absent limit and a
non-numeric limit both resolve to the default 50, a numeric limit is
clamped below at 1 (so 0 and -5 behave exactly as 1), and the returned
list is the suffix of the buffer of length `min limit length` (the last
`min(limit, len)` lines). -/
theorem claim_C3 (logs : List String) (n : Int) (lp : LimitParam) :
    resolveLimit .absent = 50 ∧
    resolveLimit .nonNumeric = 50 ∧
    resolveLimit (.num n) = max 1 n ∧
    tailLogs (.num 0) logs = tailLogs (.num 1) logs ∧
    tailLogs (.num (-5)) logs = tailLogs (.num 1) logs ∧
    tailLogs .nonNumeric logs = tailLogs .absent logs ∧
    (tailLogs lp logs).length = min (resolveLimit lp).toNat logs.length ∧
    tailLogs lp logs <:+ logs := by
  refine ⟨rfl, rfl, rfl, ?_, ?_, rfl, ?_, sliceLast_suffix _ _⟩
  · have h0 : (resolveLimit (.num 0)).toNat = (resolveLimit (.num 1)).toNat := by
      decide
    rw [tailLogs, tailLogs, h0]
  · have h5 : (resolveLimit (.num (-5))).toNat = (resolveLimit (.num 1)).toNat := by
      decide
    rw [tailLogs, tailLogs, h5]
  · rw [tailLogs, sliceLast_length]

/-- C7: an incoming live-channel message whose payload fails JSON
parsing (or parses to a falsy value), and a parsed message without a
recognized type of 'logs' or 'log', are silently dropped: the published
log list is unchanged, and the handler is a total function (no exception
escapes it). -/
theorem claim_C7 (current : List String) :
    onMessage none current = current ∧
    onMessage (some .otherMsg) current = current :=
  ⟨rfl, rfl⟩

/-- C9: starting from the empty list published at connect time, any
sequence of snapshot messages, incremental line messages and poll
responses keeps the published log list at no more than maxDisplay = 5000
entries — every publishing path truncates with `slice(-5000)`. -/
theorem claim_C9 (events : List ConsoleEvent) :
    (events.foldl stepLogs []).length ≤ 5000 ∧ maxDisplay = 5000 :=
  ⟨foldl_stepLogs_le events [] (by simp), rfl⟩

/-- C6: a request to any per-server route whose id is not in the
registry answers HTTP 404 with the JSON body `{error: 'Server not
found.'}`, and none of the three stores (lifecycle states, log buffers,
file entries) is touched: the whole store triple is returned unchanged. -/
theorem claim_C6 (db : MockDb) (now : String) (r : MockReq)
    (h : mockServers.find? (fun item => item.id = r.id) = none) :
    handleServerReq db now r = (⟨404, .err "Server not found."⟩, db) := by
  unfold handleServerReq
  rw [h]

/-- Witness for C6: a start request for the unregistered id
'no-such-server' against the seeded stores. -/
theorem claim_C6_witness :
    mockServers.find? (fun item =>
        item.id = (⟨"no-such-server", .startR, .POST, .absent, none, none,
          none, none, none, none, none, ""⟩ : MockReq).id) = none ∧
    handleServerReq seededDb "2026-02-08T08:00:00.000Z"
        ⟨"no-such-server", .startR, .POST, .absent, none, none, none, none,
          none, none, none, ""⟩ =
      (⟨404, .err "Server not found."⟩, seededDb) :=
  ⟨by decide, claim_C6 seededDb "2026-02-08T08:00:00.000Z" _ (by decide)⟩

/-- C2: for a registered server id, each lifecycle action (any HTTP
method reaches these handlers) sets the per-id state to the documented
status / lastAction / fresh timestamp, appends exactly one log line with
the documented text (the buffer gains that line as its newest entry,
growing by one up to the 200 cap), and the response carries the
resulting state. -/
theorem claim_C2 (db : MockDb) (now id : String) (server : MockServer)
    (m : Method)
    (hs : mockServers.find? (fun item => item.id = id) = some server) :
    (handleServerReq db now { id := id, action := .startR, method := m }).1 =
      ⟨200, .serverAndState server ⟨.online, some .start, some now⟩⟩ ∧
    mget (handleServerReq db now
        { id := id, action := .startR, method := m }).2.states id =
      some ⟨.online, some .start, some now⟩ ∧
    mget (handleServerReq db now
        { id := id, action := .startR, method := m }).2.logs id =
      some (appendLog ((mget db.logs id).getD []) "[INFO] Server started") ∧
    (handleServerReq db now { id := id, action := .stopR, method := m }).1 =
      ⟨200, .serverAndState server ⟨.offline, some .stop, some now⟩⟩ ∧
    mget (handleServerReq db now
        { id := id, action := .stopR, method := m }).2.states id =
      some ⟨.offline, some .stop, some now⟩ ∧
    mget (handleServerReq db now
        { id := id, action := .stopR, method := m }).2.logs id =
      some (appendLog ((mget db.logs id).getD []) "[INFO] Server stopped") ∧
    (handleServerReq db now { id := id, action := .restartR, method := m }).1 =
      ⟨200, .serverAndState server ⟨.online, some .restart, some now⟩⟩ ∧
    mget (handleServerReq db now
        { id := id, action := .restartR, method := m }).2.states id =
      some ⟨.online, some .restart, some now⟩ ∧
    mget (handleServerReq db now
        { id := id, action := .restartR, method := m }).2.logs id =
      some (appendLog ((mget db.logs id).getD []) "[INFO] Server restarted") ∧
    (∀ line : String,
      (appendLog ((mget db.logs id).getD []) line).getLast? = some line) ∧
    (∀ line : String,
      (appendLog ((mget db.logs id).getD []) line).length =
        min (((mget db.logs id).getD []).length + 1) 200) := by
  refine ⟨?_, ?_, ?_, ?_, ?_, ?_, ?_, ?_, ?_,
    fun line => appendLog_getLast _ line, fun line => appendLog_length _ line⟩ <;>
  · cases hmg : mget db.states id <;>
      simp [handleServerReq, hs, getServerState, hmg, appendLogDb, mget_mset_self]

/-- Witness for C2: starting the seeded nau-survival server yields the
online/start state in the response. -/
theorem claim_C2_witness :
    mockServers.find? (fun item => item.id = "nau-survival") = some srvSurvival ∧
    (handleServerReq seededDb "2026-02-08T08:00:00.000Z"
        { id := "nau-survival", action := .startR, method := .POST }).1 =
      ⟨200, .serverAndState srvSurvival
        ⟨.online, some .start, some "2026-02-08T08:00:00.000Z"⟩⟩ :=
  ⟨by decide,
    (claim_C2 seededDb "2026-02-08T08:00:00.000Z" "nau-survival" srvSurvival
      .POST (by decide)).1⟩

/-- C4: a command POST for a registered server trims the submitted text.
An empty trimmed command appends nothing (the log store is returned as it
was) and the call still answers `{ok:true}`; a non-empty trimmed command
appends exactly two lines in order — the `[CMD]` echo of the command and
the synthetic `[INFO] Executed command: …` line — and also answers
`{ok:true}`; the state and file stores are never touched beyond the lazy
state-entry creation done for every per-server request. -/
theorem claim_C4 (db : MockDb) (now id : String) (server : MockServer)
    (cmdB : Option String)
    (hs : mockServers.find? (fun item => item.id = id) = some server) :
    (getServerState db id).2.logs = db.logs ∧
    ((cmdB.getD "").trim = "" →
      handleServerReq db now
          { id := id, action := .commandR, method := .POST, command := cmdB } =
        (⟨200, .okTrue⟩, (getServerState db id).2)) ∧
    ((cmdB.getD "").trim ≠ "" →
      (handleServerReq db now
          { id := id, action := .commandR, method := .POST, command := cmdB }).1 =
        ⟨200, .okTrue⟩ ∧
      mget (handleServerReq db now
          { id := id, action := .commandR, method := .POST,
            command := cmdB }).2.logs id =
        some (appendLog
          (appendLog ((mget db.logs id).getD [])
            ("[CMD] " ++ (cmdB.getD "").trim))
          ("[INFO] Executed command: " ++ (cmdB.getD "").trim)) ∧
      (handleServerReq db now
          { id := id, action := .commandR, method := .POST,
            command := cmdB }).2.states = (getServerState db id).2.states ∧
      (handleServerReq db now
          { id := id, action := .commandR, method := .POST,
            command := cmdB }).2.files = db.files) := by
    refine ⟨getServerState_logs db id, ?_, ?_⟩
    · intro hemp
      cases hmg : mget db.states id <;>
        simp [handleServerReq, hs, getServerState, hmg, hemp]
    · intro hne
      refine ⟨?_, ?_, ?_, ?_⟩ <;>
      · cases hmg : mget db.states id <;>
          simp [handleServerReq, hs, getServerState, hmg, hne, appendLogDb,
            mget_mset_self]

/-- Witness for C4: the command '  say hi  ' submitted to the seeded
nau-survival server trims to 'say hi' and appends the echo line followed
by the executed-command line. -/
theorem claim_C4_witness :
    mockServers.find? (fun item => item.id = "nau-survival") = some srvSurvival ∧
    (((some "  say hi  " : Option String).getD "").trim ≠ "" →
      (handleServerReq seededDb "2026-02-08T08:00:00.000Z"
          { id := "nau-survival", action := .commandR, method := .POST,
            command := some "  say hi  " }).1 = ⟨200, .okTrue⟩ ∧
      mget (handleServerReq seededDb "2026-02-08T08:00:00.000Z"
          { id := "nau-survival", action := .commandR, method := .POST,
            command := some "  say hi  " }).2.logs "nau-survival" =
        some (appendLog
          (appendLog ((mget seededDb.logs "nau-survival").getD [])
            ("[CMD] " ++ ((some "  say hi  " : Option String).getD "").trim))
          ("[INFO] Executed command: " ++
            ((some "  say hi  " : Option String).getD "").trim)) ∧
      (handleServerReq seededDb "2026-02-08T08:00:00.000Z"
          { id := "nau-survival", action := .commandR, method := .POST,
            command := some "  say hi  " }).2.states =
        (getServerState seededDb "nau-survival").2.states ∧
      (handleServerReq seededDb "2026-02-08T08:00:00.000Z"
          { id := "nau-survival", action := .commandR, method := .POST,
            command := some "  say hi  " }).2.files = seededDb.files) :=
  ⟨by decide,
    (claim_C4 seededDb "2026-02-08T08:00:00.000Z" "nau-survival" srvSurvival
      (some "  say hi  ") (by decide)).2.2⟩

/-- C5: the backend stats route, for a registered server whose config
carries no truthy remote-console password, answers HTTP 400 with the
JSON body `{error: 'RCON not configured.'}` — an error rather than a
stats snapshot — and returns the state store exactly as it was: the
guard fires before any state access, so no lifecycle status changes,
whatever the RCON session would have produced. -/
theorem claim_C5 (servers : List BServerConfig)
    (states : List (String × ServerState)) (now id : String)
    (server : BServerConfig) (io : StatsIO)
    (hfound : servers.find? (fun s => s.id = id) = some server)
    (hnopw : hasRconPassword server = false) :
    bHandleStats servers true states now id io =
      (⟨400, .err "RCON not configured."⟩, states) := by
  simp [bHandleStats, hfound, hnopw]

/-- Witness for C5: a loaded registry containing a server with no rcon
block; its stats request answers the RCON-not-configured error and the
seeded state store comes back untouched. -/
theorem claim_C5_witness :
    [bSrvNoRcon].find? (fun s => s.id = "nau-survival") = some bSrvNoRcon ∧
    hasRconPassword bSrvNoRcon = false ∧
    bHandleStats [bSrvNoRcon] true mockStatesSeed "2026-02-08T08:00:00.000Z"
        "nau-survival" .failed =
      (⟨400, .err "RCON not configured."⟩, mockStatesSeed) :=
  ⟨by decide, by decide,
    claim_C5 [bSrvNoRcon] mockStatesSeed "2026-02-08T08:00:00.000Z"
      "nau-survival" bSrvNoRcon .failed (by decide) (by decide)⟩

/-- C8: in the polling fallback mode with a registered current server,
`setLimit` stores the new limit and immediately re-fetches, replacing the
published list with the tail of the current buffer at the new limit
(truncated by the 5000-line display cap); each firing of the fixed
2000 ms interval re-fetches and replaces likewise; `startPolling`
performs an immediate fetch and installs that interval. -/
theorem claim_C8 (db : MockDb) (svc : ConsoleSvc) (server : MockServer)
    (limit : Int)
    (hs : mockServers.find? (fun item => item.id = svc.serverId) = some server) :
    (setLimit db svc limit).limit = limit ∧
    (setLimit db svc limit).logs =
      sliceLast maxDisplay
        (tailLogs (.num limit) ((mget db.logs svc.serverId).getD [])) ∧
    (pollTick db svc).logs =
      sliceLast maxDisplay
        (tailLogs (.num svc.limit) ((mget db.logs svc.serverId).getD [])) ∧
    (startPolling db svc).pollingActive = true ∧
    (startPolling db svc).logs =
      sliceLast maxDisplay
        (tailLogs (.num svc.limit) ((mget db.logs svc.serverId).getD [])) ∧
    pollIntervalMs = 2000 := by
  have hne : svc.serverId ≠ "" := by
    intro he
    rw [he] at hs
    have hnone : mockServers.find? (fun item => item.id = "") = none := by decide
    rw [hnone] at hs
    exact Option.noConfusion hs
  refine ⟨?_, ?_, ?_, ?_, ?_, rfl⟩ <;>
  · cases hmg : mget db.states svc.serverId <;>
      simp [setLimit, pollTick, startPolling, fetchLogs, handleServerReq, hs,
        getServerState, hmg, hne]

/-- Witness for C8: a limit change to 2 while polling the seeded
nau-survival server immediately publishes the last 2 buffered lines. -/
theorem claim_C8_witness :
    mockServers.find? (fun item =>
        item.id = (⟨"nau-survival", 50, [], true⟩ : ConsoleSvc).serverId) =
      some srvSurvival ∧
    (setLimit seededDb ⟨"nau-survival", 50, [], true⟩ 2).logs =
      sliceLast maxDisplay (tailLogs (.num 2)
        ((mget seededDb.logs "nau-survival").getD [])) :=
  ⟨by decide,
    (claim_C8 seededDb ⟨"nau-survival", 50, [], true⟩ srvSurvival 2
      (by decide)).2.1⟩

theorem mset_of_not_key {α : Type} (m : List (String × α)) (k : String) (v : α)
    (h : ∀ q ∈ m, q.1 ≠ k) : mset m k v = m ++ [(k, v)] := by
  induction m with
  | nil => rfl
  | cons q rest ih =>
    obtain ⟨k0, v0⟩ := q
    have hk0 : k0 ≠ k := h (k0, v0) (by simp)
    simp only [mset, if_neg hk0, List.cons_append, List.cons.injEq, true_and]
    exact ih (fun q hq => h q (by simp [hq]))

theorem foldl_mset_pairs (results : List StatusResult) :
    ∀ m : List (String × ServerState),
      (∀ x ∈ results, ∀ q ∈ m, q.1 ≠ x.server.id) →
      (results.map (fun x => x.server.id)).Nodup →
      results.foldl (fun acc x => mset acc x.server.id x.state) m =
        m ++ results.map (fun x => (x.server.id, x.state)) := by
  induction results with
  | nil =>
    intro m _ _
    simp
  | cons r rest ih =>
    intro m hdis hnd
    simp only [List.map_cons, List.nodup_cons] at hnd
    obtain ⟨hnotin, hnd2⟩ := hnd
    rw [List.foldl_cons,
      mset_of_not_key m r.server.id r.state (fun q hq => hdis r (by simp) q hq)]
    have hdis2 : ∀ x ∈ rest, ∀ q ∈ m ++ [(r.server.id, r.state)],
        q.1 ≠ x.server.id := by
      intro x hx q hq
      rcases List.mem_append.mp hq with hqm | hqs
      · exact hdis x (by simp [hx]) q hqm
      · have hq1 : q.1 = r.server.id := by
          simp only [List.mem_singleton] at hqs
          rw [hqs]
        rw [hq1]
        intro heq
        exact hnotin (heq ▸ List.mem_map_of_mem _ hx)
    rw [ih (m ++ [(r.server.id, r.state)]) hdis2 hnd2]
    simp

theorem mget_pairs_nodup (servers : List MockServer) (f : MockServer → StatusResult) :
    ∀ (hf : ∀ t ∈ servers, (f t).server.id = t.id)
      (hnd : (servers.map (fun s => s.id)).Nodup)
      (s : MockServer), s ∈ servers →
      mget ((servers.map f).map (fun x => (x.server.id, x.state))) s.id =
        some (f s).state := by
  induction servers with
  | nil =>
    intro _ _ s hs
    cases hs
  | cons t rest ih =>
    intro hf hnd s hs
    have hft : (f t).server.id = t.id := hf t (by simp)
    simp only [List.map_cons, List.nodup_cons] at hnd
    obtain ⟨hnotin, hnd2⟩ := hnd
    simp only [List.map_cons, mget, hft]
    by_cases he : t.id = s.id
    · rw [if_pos he]
      have hst : s = t := by
        rcases List.mem_cons.mp hs with h | h
        · exact h
        · exact absurd (he ▸ List.mem_map_of_mem _ h) hnotin
      rw [hst]
    · rw [if_neg he]
      have hsr : s ∈ rest := by
        rcases List.mem_cons.mp hs with h | h
        · subst h
          exact absurd rfl he
        · exact h
      exact ih (fun t2 ht2 => hf t2 (List.mem_cons_of_mem _ ht2)) hnd2 s hsr

/-- C10: refreshing statuses over a server list with pairwise-distinct
ids (the registry invariant, true of the mock registry) publishes a map
whose keys are exactly the registered ids in order — one entry per
server — where a server whose request failed is mapped to the fallback
offline/null/null state and every other server to the state its own
request returned: one failure neither discards the others' results nor
aborts the refresh. -/
theorem claim_C10 (servers : List MockServer)
    (outcome : MockServer → Option StatusResult)
    (hnd : (servers.map (fun s => s.id)).Nodup)
    (hid : ∀ s ∈ servers, ∀ r ∈ outcome s, r.server.id = s.id) :
    (refreshStatuses servers outcome).map Prod.fst =
      servers.map (fun s => s.id) ∧
    (∀ s ∈ servers, outcome s = none →
      mget (refreshStatuses servers outcome) s.id = some fallbackState) ∧
    (∀ s ∈ servers, ∀ r, outcome s = some r →
      mget (refreshStatuses servers outcome) s.id = some r.state) := by
  by_cases hemp : servers.isEmpty
  · have hnil : servers = [] := List.isEmpty_iff.mp hemp
    subst hnil
    simp [refreshStatuses]
  · set f : MockServer → StatusResult :=
      fun server => (outcome server).getD ⟨server, fallbackState⟩ with hf_def
    have hf : ∀ t ∈ servers, (f t).server.id = t.id := by
      intro t ht
      cases ho : outcome t with
      | none => simp [hf_def, ho]
      | some r => simp [hf_def, ho, hid t ht r (by simp [ho])]
    have hmapids : (servers.map f).map (fun x => x.server.id) =
        servers.map (fun s => s.id) := by
      rw [List.map_map]
      exact List.map_congr_left (fun t ht => hf t ht)
    have hrw : refreshStatuses servers outcome =
        (servers.map f).map (fun x => (x.server.id, x.state)) := by
      unfold refreshStatuses
      rw [if_neg hemp,
        foldl_mset_pairs (servers.map f) [] (by intro x _ q hq; cases hq)
          (by rw [hmapids]; exact hnd)]
      simp
    refine ⟨?_, ?_, ?_⟩
    · rw [hrw, List.map_map]
      exact hmapids
    · intro s hs ho
      rw [hrw, mget_pairs_nodup servers f hf hnd s hs]
      simp [hf_def, ho]
    · intro s hs r ho
      rw [hrw, mget_pairs_nodup servers f hf hnd s hs]
      simp [hf_def, ho]

/-- Witness for C10: refreshing the four mock servers with the
nau-creative request failing still publishes all four ids in order. -/
theorem claim_C10_witness :
    (mockServers.map (fun s => s.id)).Nodup ∧
    (∀ s ∈ mockServers, ∀ r ∈ outcomeW s, r.server.id = s.id) ∧
    (refreshStatuses mockServers outcomeW).map Prod.fst =
      mockServers.map (fun s => s.id) :=
  have hid : ∀ s ∈ mockServers, ∀ r ∈ outcomeW s, r.server.id = s.id := by
    intro s _ r hr
    by_cases hc : s.id = "nau-creative"
    · simp [outcomeW, hc] at hr
    · simp only [outcomeW, if_neg hc, Option.mem_def, Option.some.injEq] at hr
      rw [← hr]
  ⟨by decide, hid, (claim_C10 mockServers outcomeW (by decide) hid).1⟩

end NauPanel
